import Mathlib

/-!
Verification of the Notion → Google Calendar one-way sync
(`notion_calendar_sync.py`, with the draft helper in `Transformation.py`).

The development shallowly embeds the date arithmetic (Python `datetime`,
`timedelta`, `dateutil.relativedelta`), the time-slot parser, the
occurrence-expansion loops of `sync_page_with_recurring`, and the
reconciliation control flow of `sync_page_with_date` / `sync_page` /
`run_sync` as executable Lean definitions, and proves the spec's claims
about them.
-/

/-! ## Proleptic Gregorian calendar arithmetic (Python `datetime` model) -/

/-- Gregorian leap-year test (as used by Python's `datetime`). -/
def isLeap (y : Nat) : Bool :=
  decide ((y % 4 = 0 ∧ y % 100 ≠ 0) ∨ y % 400 = 0)

/-- Number of days in month `m` (1–12) of year `y`. -/
def daysInMonth (y m : Nat) : Nat :=
  if m = 2 then (if isLeap y then 29 else 28)
  else if m = 4 ∨ m = 6 ∨ m = 9 ∨ m = 11 then 30
  else 31

/-- Number of days in year `y`. -/
def daysInYear (y : Nat) : Nat :=
  if isLeap y then 366 else 365

/-- Days in all years before year `y` (epoch: year 0, which is a leap year).
Closed form: 365 per year plus one day per leap year in `[0, y)`. -/
def daysBeforeYear (y : Nat) : Nat :=
  365 * y + (y + 3) / 4 - (y + 99) / 100 + (y + 399) / 400

/-- Days in the months of year `y` strictly before month `m`. -/
def daysBeforeMonth (y : Nat) : Nat → Nat
  | 0 => 0
  | 1 => 0
  | m + 2 => daysBeforeMonth y (m + 1) + daysInMonth y (m + 1)

/-- A naive `datetime` value: calendar date plus time of day.
Seconds/microseconds are zeroed by the code paths modelled here. -/
structure DateTime where
  year : Nat
  month : Nat
  day : Nat
  hour : Nat
  minute : Nat
deriving DecidableEq, Repr

/-- The date part is a real calendar date. -/
def ValidDate (d : DateTime) : Prop :=
  1 ≤ d.month ∧ d.month ≤ 12 ∧ 1 ≤ d.day ∧ d.day ≤ daysInMonth d.year d.month

instance (d : DateTime) : Decidable (ValidDate d) := by
  unfold ValidDate; infer_instance

/-- Rata-die style day number of a date (time of day ignored). -/
def toDays (d : DateTime) : Nat :=
  daysBeforeYear d.year + daysBeforeMonth d.year d.month + (d.day - 1)

/-- Python's `datetime.weekday()`: Monday = 0 … Sunday = 6.
Jan 1 of year 1 is a Monday in the proleptic Gregorian calendar. -/
def weekday (d : DateTime) : Nat :=
  (toDays d + 5) % 7

/-- Advance one calendar day (`timedelta(days=1)`), keeping the time of day. -/
def nextDay (d : DateTime) : DateTime :=
  if d.day < daysInMonth d.year d.month then { d with day := d.day + 1 }
  else if d.month < 12 then { d with month := d.month + 1, day := 1 }
  else { d with year := d.year + 1, month := 1, day := 1 }

/-- `d + timedelta(days = n)`. -/
def addDays (n : Nat) (d : DateTime) : DateTime :=
  match n with
  | 0 => d
  | n + 1 => nextDay (addDays n d)

/-- `d + relativedelta(months = k)`: add to the month, carry into the year,
and clamp the day of month to the target month's length. -/
def addMonths (d : DateTime) (k : Nat) : DateTime :=
  let m0 := d.month - 1 + k
  let y := d.year + m0 / 12
  let m := m0 % 12 + 1
  { d with year := y, month := m, day := min d.day (daysInMonth y m) }

/-- Python comparison of naive datetimes: lexicographic on
(year, month, day, hour, minute). -/
def dtLe (a b : DateTime) : Bool :=
  if a.year ≠ b.year then decide (a.year < b.year)
  else if a.month ≠ b.month then decide (a.month < b.month)
  else if a.day ≠ b.day then decide (a.day < b.day)
  else if a.hour ≠ b.hour then decide (a.hour < b.hour)
  else decide (a.minute ≤ b.minute)

/-- Lexicographic order on the date parts only. -/
def dateLe (a b : DateTime) : Bool :=
  if a.year ≠ b.year then decide (a.year < b.year)
  else if a.month ≠ b.month then decide (a.month < b.month)
  else decide (a.day ≤ b.day)

/-- Strict lexicographic order on the date parts only. -/
def dateLt (a b : DateTime) : Bool :=
  if a.year ≠ b.year then decide (a.year < b.year)
  else if a.month ≠ b.month then decide (a.month < b.month)
  else decide (a.day < b.day)

/-- `current.replace(hour=h, minute=m, second=0, microsecond=0)`. -/
def replaceTime (d : DateTime) (h m : Nat) : DateTime :=
  { d with hour := h, minute := m }

/-! ## Time-slot parser (`parse_time_slot`) -/

/-- Numeric value of a decimal digit character. -/
def digitVal (c : Char) : Nat := c.toNat - '0'.toNat

/-- Python's `f"{n:02d}"` for small naturals. -/
def fmt2 (n : Nat) : String :=
  if n < 10 then "0" ++ toString n else toString n

/-- `parse_time_slot`: parse an `HHMM` string into `(hour, minute)`;
a Python `ValueError` is modelled as `Except.error` carrying the message. -/
def parse_time_slot (time_slot : String) : Except String (Nat × Nat) :=
  if time_slot.length ≠ 4 ∨ ¬ (time_slot.toList.all Char.isDigit) then
    .error ("Expected HHMM format (e.g., 0600), got: " ++ time_slot)
  else
    match time_slot.toList with
    | [a, b, c, d] =>
      let hour := 10 * digitVal a + digitVal b
      let minute := 10 * digitVal c + digitVal d
      -- Python checks 0 <= hour <= 23 and 0 <= minute <= 59; the lower
      -- bounds are vacuous over Nat.
      if hour ≤ 23 ∧ minute ≤ 59 then .ok (hour, minute)
      else .error ("Invalid time: " ++ fmt2 hour ++ ":" ++ fmt2 minute)
    | _ =>
      -- unreachable: the length/digit guard above ensures exactly 4 chars
      .error ("Expected HHMM format (e.g., 0600), got: " ++ time_slot)

/-! ## Calendar arithmetic lemmas -/

set_option maxHeartbeats 1600000 in
theorem daysBeforeYear_succ (y : Nat) :
    daysBeforeYear (y + 1) = daysBeforeYear y + daysInYear y := by
  by_cases h : (y % 4 = 0 ∧ y % 100 ≠ 0) ∨ y % 400 = 0 <;>
    [have hl : isLeap y = true := decide_eq_true h;
     have hl : isLeap y = false := decide_eq_false h] <;>
    simp only [daysBeforeYear, daysInYear, hl, if_true, Bool.false_eq_true, if_false] <;>
    omega

theorem daysBeforeYear_mono {a b : Nat} (h : a ≤ b) :
    daysBeforeYear a ≤ daysBeforeYear b := by
  induction b with
  | zero => simp_all
  | succ n ih =>
    rcases Nat.lt_or_ge a (n + 1) with hl | hg
    · calc daysBeforeYear a ≤ daysBeforeYear n := ih (by omega)
        _ ≤ _ := by rw [daysBeforeYear_succ]; omega
    · have ha : a = n + 1 := by omega
      rw [ha]

theorem daysInMonth_pos (y m : Nat) : 1 ≤ daysInMonth y m := by
  unfold daysInMonth
  split
  · split <;> norm_num
  · split <;> norm_num

theorem daysInMonth_le_31 (y m : Nat) : daysInMonth y m ≤ 31 := by
  unfold daysInMonth
  split
  · split <;> norm_num
  · split <;> norm_num

theorem daysBeforeMonth_succ (y m : Nat) (h : 1 ≤ m) :
    daysBeforeMonth y (m + 1) = daysBeforeMonth y m + daysInMonth y m := by
  match m, h with
  | n + 1, _ => rfl

theorem daysBeforeMonth_one (y : Nat) : daysBeforeMonth y 1 = 0 := rfl

theorem daysBeforeMonth_13 (y : Nat) : daysBeforeMonth y 13 = daysInYear y := by
  cases h : isLeap y <;>
    simp [daysBeforeMonth, daysInMonth, daysInYear, h]

theorem daysBeforeMonth_le_succ (y m : Nat) : daysBeforeMonth y m ≤ daysBeforeMonth y (m + 1) := by
  match m with
  | 0 => simp [daysBeforeMonth]
  | 1 => simp [daysBeforeMonth]
  | n + 2 => rw [daysBeforeMonth_succ y (n + 2) (by omega)]; omega

theorem daysBeforeMonth_mono (y : Nat) {a b : Nat} (h : a ≤ b) :
    daysBeforeMonth y a ≤ daysBeforeMonth y b := by
  induction b with
  | zero => simp_all [daysBeforeMonth]
  | succ n ih =>
    rcases Nat.lt_or_ge a (n + 1) with hl | hg
    · exact le_trans (ih (by omega)) (daysBeforeMonth_le_succ y n)
    · have ha : a = n + 1 := by omega
      rw [ha]

theorem dtLe_iff (a b : DateTime) : dtLe a b = true ↔
    (a.year < b.year ∨ (a.year = b.year ∧ (a.month < b.month ∨ (a.month = b.month ∧
      (a.day < b.day ∨ (a.day = b.day ∧ (a.hour < b.hour ∨ (a.hour = b.hour ∧
        a.minute ≤ b.minute)))))))) := by
  unfold dtLe
  split_ifs <;> simp_all

theorem dateLe_iff (a b : DateTime) : dateLe a b = true ↔
    (a.year < b.year ∨ (a.year = b.year ∧ (a.month < b.month ∨ (a.month = b.month ∧
      a.day ≤ b.day)))) := by
  unfold dateLe
  split_ifs <;> simp_all

theorem dateLt_iff (a b : DateTime) : dateLt a b = true ↔
    (a.year < b.year ∨ (a.year = b.year ∧ (a.month < b.month ∨ (a.month = b.month ∧
      a.day < b.day)))) := by
  unfold dateLt
  split_ifs <;> simp_all

theorem validDate_nextDay {d : DateTime} (h : ValidDate d) : ValidDate (nextDay d) := by
  obtain ⟨h1, h2, h3, h4⟩ := h
  unfold nextDay ValidDate
  split_ifs with hd hm
  · simp only
    omega
  · simp only
    refine ⟨by omega, by omega, by omega, daysInMonth_pos _ _⟩
  · simp only
    refine ⟨by omega, by omega, by omega, daysInMonth_pos _ _⟩

theorem toDays_nextDay {d : DateTime} (h : ValidDate d) :
    toDays (nextDay d) = toDays d + 1 := by
  obtain ⟨h1, h2, h3, h4⟩ := h
  unfold nextDay toDays
  split_ifs with hd hm
  · simp only
    omega
  · simp only
    rw [daysBeforeMonth_succ d.year d.month h1]
    omega
  · simp only
    have hm12 : d.month = 12 := by omega
    have hday : d.day = daysInMonth d.year d.month := by omega
    have h13 : daysBeforeMonth d.year 13 = daysBeforeMonth d.year 12 + daysInMonth d.year 12 :=
      daysBeforeMonth_succ d.year 12 (by omega)
    have hdy := daysBeforeYear_succ d.year
    have h13' := daysBeforeMonth_13 d.year
    rw [daysBeforeMonth_one, hm12] at *
    rw [hday, hdy, ← h13', h13]
    have := daysInMonth_pos d.year 12
    omega

theorem hour_nextDay (d : DateTime) : (nextDay d).hour = d.hour := by
  unfold nextDay; split_ifs <;> rfl

theorem minute_nextDay (d : DateTime) : (nextDay d).minute = d.minute := by
  unfold nextDay; split_ifs <;> rfl

theorem weekday_nextDay {d : DateTime} (h : ValidDate d) :
    weekday (nextDay d) = (weekday d + 1) % 7 := by
  unfold weekday
  rw [toDays_nextDay h]
  omega

/-- Python strict comparison `<` of naive datetimes: lexicographic on
(year, month, day, hour, minute). -/
def dtLt (a b : DateTime) : Bool :=
  if a.year ≠ b.year then decide (a.year < b.year)
  else if a.month ≠ b.month then decide (a.month < b.month)
  else if a.day ≠ b.day then decide (a.day < b.day)
  else if a.hour ≠ b.hour then decide (a.hour < b.hour)
  else decide (a.minute < b.minute)

theorem dtLt_iff (a b : DateTime) : dtLt a b = true ↔
    (a.year < b.year ∨ (a.year = b.year ∧ (a.month < b.month ∨ (a.month = b.month ∧
      (a.day < b.day ∨ (a.day = b.day ∧ (a.hour < b.hour ∨ (a.hour = b.hour ∧
        a.minute < b.minute)))))))) := by
  unfold dtLt
  split_ifs <;> simp_all

theorem validDate_addDays {d : DateTime} (h : ValidDate d) (n : Nat) :
    ValidDate (addDays n d) := by
  induction n with
  | zero => exact h
  | succ k ih => exact validDate_nextDay ih

theorem toDays_addDays {d : DateTime} (h : ValidDate d) (n : Nat) :
    toDays (addDays n d) = toDays d + n := by
  induction n with
  | zero => rfl
  | succ k ih =>
    show toDays (nextDay (addDays k d)) = _
    rw [toDays_nextDay (validDate_addDays h k), ih]
    omega

theorem hour_addDays (d : DateTime) (n : Nat) : (addDays n d).hour = d.hour := by
  induction n with
  | zero => rfl
  | succ k ih => show (nextDay (addDays k d)).hour = _; rw [hour_nextDay, ih]

theorem minute_addDays (d : DateTime) (n : Nat) : (addDays n d).minute = d.minute := by
  induction n with
  | zero => rfl
  | succ k ih => show (nextDay (addDays k d)).minute = _; rw [minute_nextDay, ih]

theorem addDays_nextDay_comm (n : Nat) (d : DateTime) :
    addDays n (nextDay d) = addDays (n + 1) d := by
  induction n with
  | zero => rfl
  | succ k ih => show nextDay (addDays k (nextDay d)) = _; rw [ih]; rfl

theorem toDays_lt_year_succ {d : DateTime} (h : ValidDate d) :
    toDays d < daysBeforeYear (d.year + 1) := by
  obtain ⟨h1, h2, h3, h4⟩ := h
  have hs := daysBeforeMonth_succ d.year d.month h1
  have hmono := daysBeforeMonth_mono d.year (show d.month + 1 ≤ 13 by omega)
  have h13 := daysBeforeMonth_13 d.year
  have hy := daysBeforeYear_succ d.year
  unfold toDays
  omega

theorem toDays_lt_of_dateLt {d e : DateTime} (hd : ValidDate d) (he : ValidDate e)
    (h : dateLt d e = true) : toDays d < toDays e := by
  rcases (dateLt_iff d e).mp h with hy | ⟨hy, hm | ⟨hm, hday⟩⟩
  · have h1 := toDays_lt_year_succ hd
    have h2 := daysBeforeYear_mono (show d.year + 1 ≤ e.year by omega)
    obtain ⟨e1, e2, e3, e4⟩ := he
    unfold toDays at *
    omega
  · obtain ⟨d1, d2, d3, d4⟩ := hd
    have hs := daysBeforeMonth_succ d.year d.month d1
    have hmono := daysBeforeMonth_mono d.year (show d.month + 1 ≤ e.month by omega)
    obtain ⟨e1, e2, e3, e4⟩ := he
    unfold toDays at *
    rw [← hy] at *
    omega
  · obtain ⟨d1, d2, d3, d4⟩ := hd
    unfold toDays
    rw [← hy, ← hm]
    omega

theorem toDays_le_of_dateLe {d e : DateTime} (hd : ValidDate d) (he : ValidDate e)
    (h : dateLe d e = true) : toDays d ≤ toDays e := by
  by_cases hlt : dateLt d e = true
  · exact le_of_lt (toDays_lt_of_dateLt hd he hlt)
  · have h1 := (dateLe_iff d e).mp h
    have h2 : ¬ _ := fun hp => hlt ((dateLt_iff d e).mpr hp)
    have hy : d.year = e.year := by omega
    have hm : d.month = e.month := by omega
    have hday : d.day = e.day := by omega
    unfold toDays
    rw [hy, hm, hday]

theorem dateLe_of_toDays_le {d e : DateTime} (hd : ValidDate d) (he : ValidDate e)
    (h : toDays d ≤ toDays e) : dateLe d e = true := by
  by_contra hc
  have hne : ¬ _ := fun hp => hc ((dateLe_iff d e).mpr hp)
  have hlt : dateLt e d = true := by rw [dateLt_iff]; omega
  have := toDays_lt_of_dateLt he hd hlt
  omega

theorem dateLt_of_toDays_lt {d e : DateTime} (hd : ValidDate d) (he : ValidDate e)
    (h : toDays d < toDays e) : dateLt d e = true := by
  by_contra hc
  have hne : ¬ _ := fun hp => hc ((dateLt_iff d e).mpr hp)
  have hle : dateLe e d = true := by rw [dateLe_iff]; omega
  have := toDays_le_of_dateLe he hd hle
  omega

theorem toDays_le_of_dtLe {d e : DateTime} (hd : ValidDate d) (he : ValidDate e)
    (h : dtLe d e = true) : toDays d ≤ toDays e := by
  have h1 := (dtLe_iff d e).mp h
  have hle : dateLe d e = true := by rw [dateLe_iff]; omega
  exact toDays_le_of_dateLe hd he hle

theorem dtLe_of_midnight_dateLe {d e : DateTime} (h0 : d.hour = 0) (h1 : d.minute = 0)
    (h : dateLe d e = true) : dtLe d e = true := by
  rw [dtLe_iff]
  have := (dateLe_iff d e).mp h
  omega

theorem dtLt_of_dateLt {d e : DateTime} (h : dateLt d e = true) : dtLt d e = true := by
  rw [dtLt_iff]
  have := (dateLt_iff d e).mp h
  omega

theorem dateLe_of_dtLe {d e : DateTime} (h : dtLe d e = true) : dateLe d e = true := by
  rw [dateLe_iff]
  have := (dtLe_iff d e).mp h
  omega

/-! ## Frequency stepping (`get_next_occurrence`) -/

/-- `get_next_occurrence(current, frequency, weekday_num=None)`: the next
occurrence by frequency.  (The Python `weekday_num` parameter is unused in
the function body and is omitted here.) -/
def get_next_occurrence (current : DateTime) (frequency : String) : DateTime :=
  if frequency = "Daily" then addDays 1 current
  else if frequency = "Weekly" then addDays 7 current
  else if frequency = "Bi-Weekly" then addDays 14 current
  else if frequency = "Monthly" then addMonths current 1
  else if frequency = "Bi-Monthly" then addMonths current 2
  else
    -- Default to weekly
    addDays 7 current

theorem year_addMonths (d : DateTime) (k : Nat) :
    (addMonths d k).year = d.year + (d.month - 1 + k) / 12 := rfl

theorem month_addMonths (d : DateTime) (k : Nat) :
    (addMonths d k).month = (d.month - 1 + k) % 12 + 1 := rfl

theorem day_addMonths (d : DateTime) (k : Nat) :
    (addMonths d k).day
      = min d.day (daysInMonth (addMonths d k).year (addMonths d k).month) := rfl

theorem hour_addMonths (d : DateTime) (k : Nat) : (addMonths d k).hour = d.hour := rfl

theorem minute_addMonths (d : DateTime) (k : Nat) : (addMonths d k).minute = d.minute := rfl

theorem validDate_addMonths {d : DateTime} (h : ValidDate d) (k : Nat) :
    ValidDate (addMonths d k) := by
  obtain ⟨h1, h2, h3, h4⟩ := h
  have hmod : (d.month - 1 + k) % 12 < 12 := Nat.mod_lt _ (by norm_num)
  have hpos := daysInMonth_pos (addMonths d k).year (addMonths d k).month
  refine ⟨?_, ?_, ?_, ?_⟩
  · rw [month_addMonths]; omega
  · rw [month_addMonths]; omega
  · rw [day_addMonths]
    exact Nat.le_min.mpr ⟨h3, hpos⟩
  · rw [day_addMonths]
    exact Nat.min_le_right _ _

theorem dateLt_addMonths {d : DateTime} (h : ValidDate d) {k : Nat} (hk : 1 ≤ k) :
    dateLt d (addMonths d k) = true := by
  obtain ⟨h1, h2, h3, h4⟩ := h
  rw [dateLt_iff, year_addMonths, month_addMonths]
  omega

theorem validDate_get_next_occurrence {d : DateTime} (h : ValidDate d) (f : String) :
    ValidDate (get_next_occurrence d f) := by
  unfold get_next_occurrence
  split_ifs <;> first | exact validDate_addDays h _ | exact validDate_addMonths h _

theorem toDays_get_next_occurrence {d : DateTime} (h : ValidDate d) (f : String) :
    toDays d + 1 ≤ toDays (get_next_occurrence d f) := by
  unfold get_next_occurrence
  split_ifs
  · rw [toDays_addDays h]
  · rw [toDays_addDays h]; omega
  · rw [toDays_addDays h]; omega
  · have := toDays_lt_of_dateLt h (validDate_addMonths h 1)
      (dateLt_addMonths h (show 1 ≤ 1 by norm_num))
    omega
  · have := toDays_lt_of_dateLt h (validDate_addMonths h 2)
      (dateLt_addMonths h (show 1 ≤ 2 by norm_num))
    omega
  · rw [toDays_addDays h]; omega

theorem hour_get_next_occurrence (d : DateTime) (f : String) :
    (get_next_occurrence d f).hour = d.hour := by
  unfold get_next_occurrence
  split_ifs <;> first | rw [hour_addDays] | rw [hour_addMonths]

theorem minute_get_next_occurrence (d : DateTime) (f : String) :
    (get_next_occurrence d f).minute = d.minute := by
  unfold get_next_occurrence
  split_ifs <;> first | rw [minute_addDays] | rw [minute_addMonths]

/-! ## Weekday search (`sync_page_with_recurring`, non-Daily branch) -/

/-- The `DAY_MAP` dictionary (`.get` semantics: `none` for unknown names). -/
def DAY_MAP (day_name : String) : Option Nat :=
  if day_name = "Monday" then some 0
  else if day_name = "Tuesday" then some 1
  else if day_name = "Wednesday" then some 2
  else if day_name = "Thursday" then some 3
  else if day_name = "Friday" then some 4
  else if day_name = "Saturday" then some 5
  else if day_name = "Sunday" then some 6
  else none

/-- Fuelled form of the weekday-search loop body. -/
def find_weekday_aux (target : Nat) : Nat → DateTime → DateTime
  | 0, d => d
  | fuel + 1, d =>
    if weekday d = target then d else find_weekday_aux target fuel (nextDay d)

/-- `current = today` followed by
`while current.weekday() != weekday_num: current += timedelta(days=1)`.
Fuel 7 suffices because the weekday cycles with period 7;
`find_weekday_eq_addDays` shows the result is exactly where the
unbounded loop stops. -/
def find_weekday (d : DateTime) (target : Nat) : DateTime :=
  find_weekday_aux target 7 d

theorem weekday_lt_7 (d : DateTime) : weekday d < 7 := by
  unfold weekday
  exact Nat.mod_lt _ (by norm_num)

theorem find_weekday_aux_eq (target : Nat) (ht : target < 7) :
    ∀ (fuel : Nat) (d : DateTime), ValidDate d → (target + 7 - weekday d) % 7 < fuel →
      find_weekday_aux target fuel d = addDays ((target + 7 - weekday d) % 7) d := by
  intro fuel
  induction fuel with
  | zero => intro d _ hf; omega
  | succ n ih =>
    intro d hv hf
    by_cases hw : weekday d = target
    · have hz : (target + 7 - weekday d) % 7 = 0 := by rw [hw]; omega
      rw [hz]
      show (if weekday d = target then d else _) = d
      rw [if_pos hw]
    · have hw7 := weekday_lt_7 d
      have hw7' := weekday_lt_7 (nextDay d)
      have hstep := weekday_nextDay hv
      have hg : (target + 7 - weekday (nextDay d)) % 7 + 1 = (target + 7 - weekday d) % 7 := by
        rw [hstep]; omega
      have htail : find_weekday_aux target (n + 1) d
          = find_weekday_aux target n (nextDay d) := by
        show (if weekday d = target then d else _) = _
        rw [if_neg hw]
      rw [htail, ih (nextDay d) (validDate_nextDay hv) (by omega),
        addDays_nextDay_comm, hg]

theorem find_weekday_eq_addDays {d : DateTime} (hv : ValidDate d) {target : Nat}
    (ht : target < 7) :
    find_weekday d target = addDays ((target + 7 - weekday d) % 7) d := by
  unfold find_weekday
  exact find_weekday_aux_eq target ht 7 d hv (by have := weekday_lt_7 d; omega)

theorem find_weekday_self {d : DateTime} {target : Nat} (h : weekday d = target) :
    find_weekday d target = d := by
  show (if weekday d = target then d else _) = d
  rw [if_pos h]

/-! ## Occurrence expansion (`sync_page_with_recurring` while-loops) -/

/-- `end_date = datetime(today.year, 12, 31)`: midnight at December 31 of the
anchor's year. -/
def end_of_year (today : DateTime) : DateTime :=
  ⟨today.year, 12, 31, 0, 0⟩

/-- Fuelled form of the expansion loop
`while current <= end_date: emit current.replace(hour, minute, 0, 0);
current = get_next_occurrence(current, frequency)`. -/
def expand_aux (frequency : String) (end_date : DateTime) (hour minute : Nat) :
    Nat → DateTime → List DateTime
  | 0, _ => []
  | fuel + 1, current =>
    if dtLe current end_date then
      replaceTime current hour minute ::
        expand_aux frequency end_date hour minute fuel
          (get_next_occurrence current frequency)
    else []

/-- The expansion loop run with enough fuel to reach the horizon
(`expand_aux_stable_add` shows extra fuel never changes the result, i.e.
the unbounded `while` loop terminates exactly here). -/
def expand_occurrences (frequency : String) (end_date : DateTime) (hour minute : Nat)
    (start : DateTime) : List DateTime :=
  expand_aux frequency end_date hour minute (toDays end_date + 1 - toDays start) start

/-- `k`-fold application of `get_next_occurrence`: the `k`-th instant the
recurrence schedule visits after the loop start. -/
def iterate_occurrence (frequency : String) : Nat → DateTime → DateTime
  | 0, d => d
  | k + 1, d => iterate_occurrence frequency k (get_next_occurrence d frequency)

theorem validDate_iterate_occurrence {d : DateTime} (h : ValidDate d) (f : String) :
    ∀ k, ValidDate (iterate_occurrence f k d) := by
  intro k
  induction k generalizing d with
  | zero => exact h
  | succ n ih => exact ih (validDate_get_next_occurrence h f)

theorem toDays_iterate_occurrence {d : DateTime} (h : ValidDate d) (f : String) :
    ∀ k, toDays d + k ≤ toDays (iterate_occurrence f k d) := by
  intro k
  induction k generalizing d with
  | zero => simp [iterate_occurrence]
  | succ n ih =>
    have h1 := toDays_get_next_occurrence h f
    have h2 := ih (validDate_get_next_occurrence h f)
    show toDays d + (n + 1) ≤ toDays (iterate_occurrence f n (get_next_occurrence d f))
    omega

theorem toDays_iterate_occurrence_mono {d : DateTime} (h : ValidDate d) (f : String)
    {j k : Nat} (hjk : j ≤ k) :
    toDays (iterate_occurrence f j d) ≤ toDays (iterate_occurrence f k d) := by
  induction k generalizing d j with
  | zero =>
    have : j = 0 := by omega
    rw [this]
  | succ n ih =>
    cases j with
    | zero =>
      have h1 := toDays_get_next_occurrence h f
      have h2 := toDays_iterate_occurrence (validDate_get_next_occurrence h f) f n
      show toDays (iterate_occurrence f 0 d) ≤ toDays (iterate_occurrence f n _)
      simp only [iterate_occurrence]
      omega
    | succ m =>
      exact ih (validDate_get_next_occurrence h f) (by omega)

theorem hour_iterate_occurrence (d : DateTime) (f : String) :
    ∀ k, (iterate_occurrence f k d).hour = d.hour := by
  intro k
  induction k generalizing d with
  | zero => rfl
  | succ n ih =>
    show (iterate_occurrence f n (get_next_occurrence d f)).hour = d.hour
    rw [ih, hour_get_next_occurrence]

theorem minute_iterate_occurrence (d : DateTime) (f : String) :
    ∀ k, (iterate_occurrence f k d).minute = d.minute := by
  intro k
  induction k generalizing d with
  | zero => rfl
  | succ n ih =>
    show (iterate_occurrence f n (get_next_occurrence d f)).minute = d.minute
    rw [ih, minute_get_next_occurrence]

theorem dateLe_replaceTime (c e : DateTime) (hh mm : Nat) :
    dateLe (replaceTime c hh mm) e = dateLe c e := rfl

theorem expand_aux_dateLe (f : String) (e : DateTime) (hh mm : Nat) :
    ∀ (fuel : Nat) (d : DateTime),
      ∀ o ∈ expand_aux f e hh mm fuel d, dateLe o e = true := by
  intro fuel
  induction fuel with
  | zero => intro d o ho; simp [expand_aux] at ho
  | succ n ih =>
    intro d o ho
    by_cases hg : dtLe d e = true
    · rw [show expand_aux f e hh mm (n + 1) d
          = replaceTime d hh mm :: expand_aux f e hh mm n (get_next_occurrence d f)
          from by simp [expand_aux, hg]] at ho
      rcases List.mem_cons.mp ho with rfl | htl
      · rw [dateLe_replaceTime]
        exact dateLe_of_dtLe hg
      · exact ih _ o htl
    · rw [Bool.not_eq_true] at hg
      rw [show expand_aux f e hh mm (n + 1) d = [] from by simp [expand_aux, hg]] at ho
      simp at ho

theorem expand_aux_stable {f : String} {e : DateTime} (he : ValidDate e) (hh mm : Nat) :
    ∀ (fuel : Nat) (d : DateTime), ValidDate d → toDays e + 1 - toDays d ≤ fuel →
      expand_aux f e hh mm (fuel + 1) d = expand_aux f e hh mm fuel d := by
  intro fuel
  induction fuel with
  | zero =>
    intro d hv hf
    have hg : dtLe d e = false := by
      cases hgc : dtLe d e
      · rfl
      · have := toDays_le_of_dtLe hv he hgc
        omega
    show (if dtLe d e then _ else []) = []
    rw [hg]
    simp
  | succ n ih =>
    intro d hv hf
    show (if dtLe d e then _ else []) = (if dtLe d e then _ else [])
    cases hg : dtLe d e
    · simp
    · simp only [if_true]
      have hnext := toDays_get_next_occurrence hv f
      rw [ih (get_next_occurrence d f) (validDate_get_next_occurrence hv f) (by omega)]

theorem expand_aux_stable_add {f : String} {e : DateTime} (he : ValidDate e) (hh mm : Nat)
    {d : DateTime} (hv : ValidDate d) {fuel : Nat} (hf : toDays e + 1 - toDays d ≤ fuel) :
    ∀ k, expand_aux f e hh mm (fuel + k) d = expand_aux f e hh mm fuel d := by
  intro k
  induction k with
  | zero => rfl
  | succ n ih =>
    rw [show fuel + (n + 1) = (fuel + n) + 1 from rfl,
      expand_aux_stable he hh mm (fuel + n) d hv (by omega), ih]

theorem mem_expand_aux (f : String) (e : DateTime) (hh mm : Nat) :
    ∀ (k fuel : Nat) (d : DateTime), k < fuel →
      (∀ j, j ≤ k → dtLe (iterate_occurrence f j d) e = true) →
      replaceTime (iterate_occurrence f k d) hh mm ∈ expand_aux f e hh mm fuel d := by
  intro k
  induction k with
  | zero =>
    intro fuel d hf hj
    match fuel, hf with
    | n + 1, _ =>
      have h0 : dtLe d e = true := hj 0 (by omega)
      show _ ∈ (if dtLe d e then _ :: _ else [])
      rw [h0]
      simp [iterate_occurrence]
  | succ m ih =>
    intro fuel d hf hj
    match fuel, hf with
    | n + 1, _ =>
      have h0 : dtLe d e = true := hj 0 (by omega)
      show _ ∈ (if dtLe d e then _ :: _ else [])
      rw [h0]
      simp only [if_true]
      refine List.mem_cons_of_mem _ ?_
      have : iterate_occurrence f (m + 1) d
          = iterate_occurrence f m (get_next_occurrence d f) := rfl
      rw [this]
      exact ih n (get_next_occurrence d f) (by omega)
        (fun j hjm => hj (j + 1) (by omega))

/-! ## Reconciliation model

External collaborators (Google Calendar service, Notion client) are modelled
by outcome parameters; every externally visible mutating call is recorded in
a trace of `ExtCall`s.  A successful create returns the event id the
collaborator reports (`create_event -> {id, ...}` per the collaborator
interface). -/

/-- `HttpError` classification seen by `sync_page_with_date`:
`"404" in str(e)` or not. -/
inductive UpdErr
  | notFound404
  | otherError
deriving DecidableEq

/-- Collaborator behaviour for one `events().update(...).execute()` call. -/
inductive UpdOutcome
  | ok
  | notFound404
  | otherError
deriving DecidableEq

/-- Collaborator behaviour for one `events().insert(...).execute()` call:
either the created event (with its id) or a raised exception. -/
inductive CreateOutcome
  | ok (id : String)
  | raise
deriving DecidableEq

/-- A Notion date property value `{start, end?}`. -/
structure DateObj where
  start : Option String
  endStr : Option String
deriving DecidableEq

/-- A calendar-event payload.  The payload's internal start/end rendering
(dateutil string parsing, all-day vs timed fields, fractional-hour
arithmetic) is irrelevant to every claim, so the payload records the
builder's inputs. -/
inductive EventPayload
  | fromDate (title : String) (date_obj : DateObj) (color_id : Option String)
  | fromTime (title : String) (event_datetime : DateTime) (duration_minutes : Nat)
      (color_id : Option String)
deriving DecidableEq

/-- The `PRIORITY_COLORS` dictionary. -/
def PRIORITY_COLORS (p : String) : Option String :=
  if p = "High" then some "11"
  else if p = "Medium" then some "5"
  else if p = "Low" then some "10"
  else none

/-- `get_event_color`: color id for a priority, `None` when absent/unknown. -/
def get_event_color (priority : Option String) : Option String :=
  match priority with
  | some p => PRIORITY_COLORS p
  | none => none

/-- `build_event_payload`: raises `ValueError` when the date object has no
`start`. -/
def build_event_payload (title : String) (date_obj : DateObj)
    (color_id : Option String) : Except String EventPayload :=
  match date_obj.start with
  | none => .error "Date object missing 'start'."
  | some _ => .ok (.fromDate title date_obj color_id)

/-- `build_event_payload_from_time`: pure payload construction, never fails. -/
def build_event_payload_from_time (title : String) (event_datetime : DateTime)
    (duration_minutes : Nat) (color_id : Option String) : EventPayload :=
  .fromTime title event_datetime duration_minutes color_id

/-- A mutating call that reaches an external collaborator. -/
inductive ExtCall
  | createEvent (payload : EventPayload)
  | updateEvent (event_id : String) (payload : EventPayload)
  | patchEventId (page_id : String) (event_id : String)
deriving DecidableEq

/-- `create_calendar_event`: in dry-run, log and return a synthetic id
without touching the collaborator; otherwise perform the insert call. -/
def create_calendar_event (dry : Bool) (outcome : CreateOutcome)
    (payload : EventPayload) : Except Unit String × List ExtCall :=
  if dry then
    (.ok "dry-run-event-id", [])
  else
    match outcome with
    | .ok id => (.ok id, [.createEvent payload])
    | .raise => (.error (), [.createEvent payload])

/-- `update_calendar_event`: in dry-run, log and echo the given id without
touching the collaborator; otherwise perform the update call. -/
def update_calendar_event (dry : Bool) (outcome : UpdOutcome) (event_id : String)
    (payload : EventPayload) : Except UpdErr String × List ExtCall :=
  if dry then
    (.ok event_id, [])
  else
    match outcome with
    | .ok => (.ok event_id, [.updateEvent event_id payload])
    | .notFound404 => (.error .notFound404, [.updateEvent event_id payload])
    | .otherError => (.error .otherError, [.updateEvent event_id payload])

/-- `notion_patch_event_id`: the back-reference write to the document store
(its own failures are caught and only logged, so the caller always
continues). -/
def notion_patch_event_id (page_id event_id : String) : List ExtCall :=
  [.patchEventId page_id event_id]

/-- Number of event-create calls in a trace. -/
def createCalls (calls : List ExtCall) : Nat :=
  (calls.filter fun c => match c with | .createEvent _ => true | _ => false).length

/-- Number of event-update calls in a trace. -/
def updateCalls (calls : List ExtCall) : Nat :=
  (calls.filter fun c => match c with | .updateEvent _ _ => true | _ => false).length

/-- The back-reference writes in a trace, in order. -/
def patchWrites (calls : List ExtCall) : List (String × String) :=
  calls.filterMap fun c => match c with
    | .patchEventId p e => some (p, e)
    | _ => none

/-- `sync_page_with_date`: reconcile one explicit-date record.  Returns the
call trace and the record's stored `linked_event_id` afterwards (the value
of the Google Event ID property, updated by any back-reference write). -/
def sync_page_with_date (dry : Bool) (upd : UpdOutcome) (create : CreateOutcome)
    (page_id : String) (existing_event_id : Option String)
    (title : String) (date_obj : DateObj) (priority : Option String) :
    List ExtCall × Option String :=
  let color_id := get_event_color priority
  match build_event_payload title date_obj color_id with
  | .error _ => ([], existing_event_id)   -- caught by the outer handler, logged
  | .ok payload =>
    match existing_event_id with
    | some event_id =>
      match update_calendar_event dry upd event_id payload with
      | (.ok updated_id, calls) =>
        if dry then (calls, existing_event_id)
        else (calls ++ notion_patch_event_id page_id updated_id, some updated_id)
      | (.error .notFound404, calls) =>
        -- event no longer exists: create a new one
        match create_calendar_event dry create payload with
        | (.ok created_id, calls2) =>
          if dry then (calls ++ calls2, existing_event_id)
          else (calls ++ calls2 ++ notion_patch_event_id page_id created_id,
            some created_id)
        | (.error _, calls2) => (calls ++ calls2, existing_event_id)
      | (.error .otherError, calls) =>
        -- re-raised, caught by the outer handler, logged; no retry
        (calls, existing_event_id)
    | none =>
      match create_calendar_event dry create payload with
      | (.ok created_id, calls) =>
        if dry then (calls, existing_event_id)
        else (calls ++ notion_patch_event_id page_id created_id, some created_id)
      | (.error _, calls) => (calls, existing_event_id)

/-- The per-occurrence create loop shared by both branches of
`sync_page_with_recurring`: for each expanded occurrence (paired with the
collaborator's response to its insert call), attempt the create; a failure
is caught and logged and the loop continues; after the first successful
create (`events_created == 1`) in live mode, the id is written back to the
record once.  Returns the trace, the final `events_created`, and the
stored id afterwards. -/
def recurring_create_loop (dry : Bool) (page_id : String) :
    List (EventPayload × CreateOutcome) → Nat → Option String →
      List ExtCall × Nat × Option String
  | [], events_created, linked => ([], events_created, linked)
  | (payload, outcome) :: rest, events_created, linked =>
    match create_calendar_event dry outcome payload with
    | (.ok created_id, calls) =>
      -- `events_created += 1`; `created` and `created.get("id")` are truthy
      -- (the collaborator returns an id), so the write-back condition is
      -- `events_created == 1 and not DRY_RUN`
      if events_created + 1 = 1 ∧ dry = false then
        let r := recurring_create_loop dry page_id rest (events_created + 1)
          (some created_id)
        (calls ++ notion_patch_event_id page_id created_id ++ r.1, r.2)
      else
        let r := recurring_create_loop dry page_id rest (events_created + 1) linked
        (calls ++ r.1, r.2)
    | (.error _, calls) =>
      let r := recurring_create_loop dry page_id rest events_created linked
      (calls ++ r.1, r.2)

/-- Python `day.split('-')[-1] if '-' in day else day`. -/
def day_name_of (day : String) : String :=
  if day.contains '-' then (day.splitOn "-").getLastD day else day

/-- Python `s or "Weekly"` on an optional string: `None` and `""` are falsy. -/
def orWeekly (frequency : Option String) : String :=
  match frequency with
  | none => "Weekly"
  | some "" => "Weekly"
  | some f => f

/-- The occurrence datetimes `sync_page_with_recurring` iterates, in order:
the Daily branch expands from `today` directly; otherwise each weekday in
`days` (unknown names skipped, ordinal prefixes stripped) is seeded with the
weekday search and expanded by the chosen frequency. -/
def recurring_occurrences (today : DateTime) (days : List String) (hour minute : Nat)
    (frequency : Option String) : List DateTime :=
  let end_date := end_of_year today
  if frequency = some "Daily" then
    expand_occurrences "Daily" end_date hour minute today
  else
    (days.map fun day =>
      match DAY_MAP (day_name_of day) with
      | none => []   -- unknown day: warning logged, `continue`
      | some weekday_num =>
        expand_occurrences (orWeekly frequency) end_date hour minute
          (find_weekday today weekday_num)).flatten

/-- `sync_page_with_recurring`: validate the time slot, expand occurrences,
create an event per occurrence, and write back only the first created id.
Returns the trace, `events_created`, and the stored id afterwards. -/
def sync_page_with_recurring (dry : Bool) (today : DateTime) (page_id : String)
    (linked : Option String) (title : String) (days : List String)
    (time_slot : String) (duration_minutes : Nat) (priority : Option String)
    (frequency : Option String) (outcomes : List CreateOutcome) :
    List ExtCall × Nat × Option String :=
  let color_id := get_event_color priority
  match parse_time_slot time_slot with
  | .error _ => ([], 0, linked)   -- warning logged, return
  | .ok (hour, minute) =>
    let occs := recurring_occurrences today days hour minute frequency
    let payloads := occs.map fun occ =>
      build_event_payload_from_time title occ duration_minutes color_id
    recurring_create_loop dry page_id (payloads.zip outcomes) 0 linked

/-- Log lines relevant to the reconciler's skip decisions. -/
inductive LogLevel
  | info
  | warning
  | error
deriving DecidableEq

/-- One task record, as extracted from the Notion page by the
`extract_*` helpers. -/
structure PageData where
  page_id : String
  title : String
  date_obj : Option DateObj
  days : List String
  time_slot : Option String
  duration_minutes : Nat
  priority : Option String
  frequency : Option String
  linked_event_id : Option String

/-- `sync_page`: dispatch one record to the explicit-date or recurring path,
or skip it.  Returns the trace, the stored id afterwards, and the log lines
`sync_page` itself emits (logs of the delegated helpers are not modelled;
both skip paths return before any delegation). -/
def sync_page (dry : Bool) (today : DateTime) (upd : UpdOutcome)
    (create : CreateOutcome) (outcomes : List CreateOutcome) (page : PageData) :
    List ExtCall × Option String × List LogLevel :=
  if page.title = "" ∨ page.title = "(no title property)" ∨ page.title = "(untitled)" then
    ([], page.linked_event_id, [.warning])
  else
    match page.date_obj with
    | some date_obj =>
      let r := sync_page_with_date dry upd create page.page_id page.linked_event_id
        page.title date_obj page.priority
      (r.1, r.2, [])
    | none =>
      if page.days = [] ∨ page.time_slot = none ∨ page.time_slot = some "" then
        ([], page.linked_event_id, [.info])
      else
        let r := sync_page_with_recurring dry today page.page_id
          page.linked_event_id page.title page.days (page.time_slot.getD "")
          page.duration_minutes page.priority page.frequency outcomes
        (r.1, r.2.2, [])

/-- The driver loop of `run_sync`: each page is processed inside
`try/except`; `sync_page` is total (every modelled failure is handled
inside it), so each record increments `success_count`.  Returns
`(success_count, error_count)`. -/
def run_sync_counts (dry : Bool) (today : DateTime) (upd : UpdOutcome)
    (create : CreateOutcome) (outcomes : List CreateOutcome)
    (pages : List PageData) : Nat × Nat :=
  pages.foldl (fun acc page =>
    let _ := sync_page dry today upd create outcomes page
    (acc.1 + 1, acc.2)) (0, 0)

/-! ## C3: the time parser -/

/-- Decimal value of the first two characters (the hour field). -/
def slotHour (s : String) : Nat :=
  match s.toList with
  | a :: b :: _ => 10 * digitVal a + digitVal b
  | _ => 0

/-- Decimal value of the last two characters (the minute field). -/
def slotMinute (s : String) : Nat :=
  match s.toList with
  | _ :: _ :: c :: d :: _ => 10 * digitVal c + digitVal d
  | _ => 0

/-- `pat` is a prefix of `l`. -/
def listPrefixOf : List Char → List Char → Bool
  | [], _ => true
  | _ :: _, [] => false
  | a :: as, b :: bs => a == b && listPrefixOf as bs

/-- `pat` occurs contiguously inside `l`. -/
def listContains (pat : List Char) : List Char → Bool
  | [] => listPrefixOf pat []
  | l@(_ :: rest) => listPrefixOf pat l || listContains pat rest

/-- `sub` occurs as a contiguous substring of `s`. -/
def strContains (sub s : String) : Bool :=
  listContains sub.toList s.toList

theorem list_four {α} (l : List α) (h : l.length = 4) : ∃ a b c d, l = [a, b, c, d] := by
  match l, h with
  | [a, b, c, d], _ => exact ⟨a, b, c, d, rfl⟩

/-- C3, counterexample: for the out-of-range inputs `"2400"` and `"1260"`
the parser's error message is the re-formatted `"Invalid time: HH:MM"`,
which does not carry the offending string itself, contradicting the claim
that every failure carries the offending string. -/
theorem C3_counterexample :
    parse_time_slot "2400" = .error "Invalid time: 24:00"
    ∧ strContains "2400" "Invalid time: 24:00" = false
    ∧ parse_time_slot "1260" = .error "Invalid time: 12:60"
    ∧ strContains "1260" "Invalid time: 12:60" = false := by
  refine ⟨rfl, by decide, rfl, by decide⟩

/-- C3, amended: the parser returns `(hour, minute)` iff the input is
exactly 4 decimal digits with hour ≤ 23 and minute ≤ 59; wrong-length and
non-digit inputs fail with an error carrying the offending string; 4-digit
out-of-range inputs fail with an error carrying the parsed time re-formatted
as `HH:MM` (not the offending string itself). -/
theorem C3_time_parser_amended (s : String) :
    (∀ h m : Nat, parse_time_slot s = .ok (h, m) ↔
      (s.length = 4 ∧ s.toList.all Char.isDigit ∧ h = slotHour s ∧ m = slotMinute s ∧
        h ≤ 23 ∧ m ≤ 59))
    ∧ (¬ (s.length = 4 ∧ s.toList.all Char.isDigit) →
        parse_time_slot s = .error ("Expected HHMM format (e.g., 0600), got: " ++ s))
    ∧ (s.length = 4 → s.toList.all Char.isDigit →
        ¬ (slotHour s ≤ 23 ∧ slotMinute s ≤ 59) →
        parse_time_slot s
          = .error ("Invalid time: " ++ fmt2 (slotHour s) ++ ":" ++ fmt2 (slotMinute s))) := by
  by_cases hshape : s.length = 4 ∧ s.toList.all Char.isDigit
  · obtain ⟨hlen, hdig⟩ := hshape
    have hlen' : s.toList.length = 4 := hlen
    obtain ⟨a, b, c, d, hl⟩ := list_four s.toList hlen'
    have hH : slotHour s = 10 * digitVal a + digitVal b := by unfold slotHour; rw [hl]
    have hM : slotMinute s = 10 * digitVal c + digitVal d := by unfold slotMinute; rw [hl]
    have hcond : ¬ (s.length ≠ 4 ∨ ¬ (s.toList.all Char.isDigit = true)) := by
      intro hc
      rcases hc with hc | hc
      · exact hc hlen
      · exact hc hdig
    have hparse : parse_time_slot s =
        if 10 * digitVal a + digitVal b ≤ 23 ∧ 10 * digitVal c + digitVal d ≤ 59
        then .ok (10 * digitVal a + digitVal b, 10 * digitVal c + digitVal d)
        else .error ("Invalid time: " ++ fmt2 (10 * digitVal a + digitVal b) ++ ":"
          ++ fmt2 (10 * digitVal c + digitVal d)) := by
      unfold parse_time_slot
      rw [if_neg hcond, hl]
    refine ⟨?_, ?_, ?_⟩
    · intro h m
      rw [hparse, hH, hM]
      split_ifs with hr
      · constructor
        · intro hok
          injection hok with hok'
          injection hok' with h1 h2
          exact ⟨hlen, hdig, h1.symm, h2.symm, by omega, by omega⟩
        · rintro ⟨-, -, rfl, rfl, -, -⟩
          rfl
      · constructor
        · intro hok
          exact absurd hok (by simp)
        · rintro ⟨-, -, rfl, rfl, h5, h6⟩
          exact absurd ⟨h5, h6⟩ hr
    · intro hc
      exact absurd ⟨hlen, hdig⟩ hc
    · intro _ _ hr
      rw [hparse, hH, hM]
      rw [if_neg (by rw [hH, hM] at hr; exact hr)]
  · have hcond : s.length ≠ 4 ∨ ¬ (s.toList.all Char.isDigit = true) := by
      by_cases h1 : s.length = 4
      · right; intro h2; exact hshape ⟨h1, h2⟩
      · left; exact h1
    have hparse : parse_time_slot s
        = .error ("Expected HHMM format (e.g., 0600), got: " ++ s) := by
      unfold parse_time_slot
      rw [if_pos hcond]
    refine ⟨?_, fun _ => hparse, ?_⟩
    · intro h m
      rw [hparse]
      constructor
      · intro hok
        exact absurd hok (by simp)
      · rintro ⟨h1, h2, -⟩
        exact absurd ⟨h1, h2⟩ hshape
    · intro h1 h2 _
      exact absurd ⟨h1, h2⟩ hshape

/-- C3, witness: the amended theorem at the spec's own examples. -/
theorem C3_witness :
    parse_time_slot "0600" = .ok (6, 0)
    ∧ parse_time_slot "2359" = .ok (23, 59)
    ∧ parse_time_slot "600" = .error "Expected HHMM format (e.g., 0600), got: 600"
    ∧ parse_time_slot "06:00" = .error "Expected HHMM format (e.g., 0600), got: 06:00"
    ∧ parse_time_slot "abcd" = .error "Expected HHMM format (e.g., 0600), got: abcd" :=
  ⟨((C3_time_parser_amended "0600").1 6 0).mpr (by decide),
   ((C3_time_parser_amended "2359").1 23 59).mpr (by decide),
   (C3_time_parser_amended "600").2.1 (by decide),
   (C3_time_parser_amended "06:00").2.1 (by decide),
   (C3_time_parser_amended "abcd").2.1 (by decide)⟩

theorem get_next_occurrence_daily (d : DateTime) :
    get_next_occurrence d "Daily" = addDays 1 d := by simp [get_next_occurrence]

theorem get_next_occurrence_weekly (d : DateTime) :
    get_next_occurrence d "Weekly" = addDays 7 d := by simp [get_next_occurrence]

theorem get_next_occurrence_biweekly (d : DateTime) :
    get_next_occurrence d "Bi-Weekly" = addDays 14 d := by simp [get_next_occurrence]

theorem get_next_occurrence_monthly (d : DateTime) :
    get_next_occurrence d "Monthly" = addMonths d 1 := by simp [get_next_occurrence]

theorem get_next_occurrence_bimonthly (d : DateTime) :
    get_next_occurrence d "Bi-Monthly" = addMonths d 2 := by simp [get_next_occurrence]

/-- C4: the next-occurrence step advances by 1 day for Daily, 7 for Weekly,
14 for Bi-Weekly, one calendar month for Monthly (day-of-month clamped to
the target month's length), two calendar months for Bi-Monthly, and 7 days
for any unknown frequency label. -/
theorem C4_frequency_stepping (d : DateTime) (h : ValidDate d) :
    toDays (get_next_occurrence d "Daily") = toDays d + 1
    ∧ toDays (get_next_occurrence d "Weekly") = toDays d + 7
    ∧ toDays (get_next_occurrence d "Bi-Weekly") = toDays d + 14
    ∧ (get_next_occurrence d "Monthly" = addMonths d 1
      ∧ (d.month ≤ 11 → (addMonths d 1).year = d.year ∧ (addMonths d 1).month = d.month + 1)
      ∧ (d.month = 12 → (addMonths d 1).year = d.year + 1 ∧ (addMonths d 1).month = 1)
      ∧ (addMonths d 1).day
          = min d.day (daysInMonth (addMonths d 1).year (addMonths d 1).month))
    ∧ (get_next_occurrence d "Bi-Monthly" = addMonths d 2
      ∧ (d.month ≤ 10 → (addMonths d 2).year = d.year ∧ (addMonths d 2).month = d.month + 2)
      ∧ (11 ≤ d.month → (addMonths d 2).year = d.year + 1 ∧ (addMonths d 2).month = d.month - 10)
      ∧ (addMonths d 2).day
          = min d.day (daysInMonth (addMonths d 2).year (addMonths d 2).month))
    ∧ (∀ f : String, f ≠ "Daily" → f ≠ "Weekly" → f ≠ "Bi-Weekly" → f ≠ "Monthly" →
        f ≠ "Bi-Monthly" → toDays (get_next_occurrence d f) = toDays d + 7) := by
  obtain ⟨h1, h2, h3, h4⟩ := h
  refine ⟨?_, ?_, ?_,
    ⟨get_next_occurrence_monthly d, ?_, ?_, day_addMonths d 1⟩,
    ⟨get_next_occurrence_bimonthly d, ?_, ?_, day_addMonths d 2⟩, ?_⟩
  · rw [get_next_occurrence_daily, toDays_addDays ⟨h1, h2, h3, h4⟩]
  · rw [get_next_occurrence_weekly, toDays_addDays ⟨h1, h2, h3, h4⟩]
  · rw [get_next_occurrence_biweekly, toDays_addDays ⟨h1, h2, h3, h4⟩]
  · intro hm
    rw [year_addMonths, month_addMonths]
    omega
  · intro hm
    rw [year_addMonths, month_addMonths]
    omega
  · intro hm
    rw [year_addMonths, month_addMonths]
    omega
  · intro hm
    rw [year_addMonths, month_addMonths]
    omega
  · intro f hf1 hf2 hf3 hf4 hf5
    unfold get_next_occurrence
    rw [if_neg hf1, if_neg hf2, if_neg hf3, if_neg hf4, if_neg hf5,
      toDays_addDays ⟨h1, h2, h3, h4⟩]

/-- C4, witness: the step at Jan 31 of a common and of a leap year
(clamping to Feb 28 / Feb 29) and a Weekly step. -/
theorem C4_witness :
    ValidDate ⟨2025, 1, 31, 9, 0⟩
    ∧ get_next_occurrence ⟨2025, 1, 31, 9, 0⟩ "Monthly" = ⟨2025, 2, 28, 9, 0⟩
    ∧ get_next_occurrence ⟨2024, 1, 31, 9, 0⟩ "Monthly" = ⟨2024, 2, 29, 9, 0⟩
    ∧ toDays (get_next_occurrence ⟨2025, 1, 31, 9, 0⟩ "Weekly") = toDays ⟨2025, 1, 31, 9, 0⟩ + 7 :=
  ⟨by decide, by rw [get_next_occurrence_monthly]; decide,
   by rw [get_next_occurrence_monthly]; decide,
   (C4_frequency_stepping ⟨2025, 1, 31, 9, 0⟩ (by decide)).2.1⟩

/-- C10: for every frequency label and valid instant the step function
returns a strictly later datetime, at least one calendar day ahead; hence
the expansion loop is fuel-stable at its canonical fuel — granting the loop
any extra fuel never changes the generated list, i.e. the source's
unbounded `while` loops stop exactly where `expand_occurrences` stops. -/
theorem C10_step_strictly_increases (frequency : String) (d e : DateTime)
    (hour minute : Nat) (hd : ValidDate d) (he : ValidDate e) :
    dtLt d (get_next_occurrence d frequency) = true
    ∧ toDays d + 1 ≤ toDays (get_next_occurrence d frequency)
    ∧ ∀ k, expand_aux frequency e hour minute ((toDays e + 1 - toDays d) + k) d
        = expand_occurrences frequency e hour minute d := by
  have hto := toDays_get_next_occurrence hd frequency
  have hnv := validDate_get_next_occurrence hd frequency
  refine ⟨?_, hto, ?_⟩
  · exact dtLt_of_dateLt (dateLt_of_toDays_lt hd hnv (by omega))
  · intro k
    exact expand_aux_stable_add he hour minute hd (le_refl _) k

/-- C10, witness: the theorem at a concrete anchor near the horizon. -/
theorem C10_witness :
    ValidDate ⟨2025, 12, 20, 8, 0⟩
    ∧ dtLt ⟨2025, 12, 20, 8, 0⟩ (get_next_occurrence ⟨2025, 12, 20, 8, 0⟩ "Bi-Monthly") = true
    ∧ expand_aux "Weekly" ⟨2025, 12, 31, 0, 0⟩ 6 0
        ((toDays ⟨2025, 12, 31, 0, 0⟩ + 1 - toDays ⟨2025, 12, 20, 8, 0⟩) + 3) ⟨2025, 12, 20, 8, 0⟩
        = expand_occurrences "Weekly" ⟨2025, 12, 31, 0, 0⟩ 6 0 ⟨2025, 12, 20, 8, 0⟩ :=
  ⟨by decide,
   (C10_step_strictly_increases "Bi-Monthly" ⟨2025, 12, 20, 8, 0⟩ ⟨2025, 12, 31, 0, 0⟩ 6 0
     (by decide) (by decide)).1,
   (C10_step_strictly_increases "Weekly" ⟨2025, 12, 20, 8, 0⟩ ⟨2025, 12, 31, 0, 0⟩ 6 0
     (by decide) (by decide)).2.2 3⟩

theorem weekday_addDays {d : DateTime} (hv : ValidDate d) (n : Nat) :
    weekday (addDays n d) = (weekday d + n) % 7 := by
  unfold weekday
  rw [toDays_addDays hv]
  omega

/-- C2, counterexample: 2025-10-08 is a Wednesday; with target weekday
Monday the weekday search lands on 2025-10-13, which is five days ahead —
the following Monday after a Wednesday is 5 days later, not 4 (four days
ahead of a Wednesday is a Sunday). -/
theorem C2_counterexample :
    weekday ⟨2025, 10, 8, 9, 0⟩ = 2
    ∧ find_weekday ⟨2025, 10, 8, 9, 0⟩ 0 = addDays 5 ⟨2025, 10, 8, 9, 0⟩
    ∧ addDays 5 ⟨2025, 10, 8, 9, 0⟩ = ⟨2025, 10, 13, 9, 0⟩
    ∧ find_weekday ⟨2025, 10, 8, 9, 0⟩ 0 ≠ addDays 4 ⟨2025, 10, 8, 9, 0⟩
    ∧ weekday (addDays 4 ⟨2025, 10, 8, 9, 0⟩) = 6 := by
  refine ⟨by decide, by decide, by decide, by decide, by decide⟩

theorem expand_occurrences_head {f : String} {e : DateTime} {hh mm : Nat}
    {start : DateTime} (hs : ValidDate start) (he : ValidDate e)
    (hg : dtLe start e = true) :
    (expand_occurrences f e hh mm start).head? = some (replaceTime start hh mm) := by
  unfold expand_occurrences
  have hto := toDays_le_of_dtLe hs he hg
  rw [show toDays e + 1 - toDays start = (toDays e - toDays start) + 1 by omega]
  show (if dtLe start e then _ :: _ else []).head? = _
  rw [hg]
  simp

/-- C2, amended: from a Wednesday anchor with target Monday the weekday
search returns the following Monday, five (not four) days ahead; when the
anchor's weekday already equals the target it returns the anchor itself (no
strictly-future skip); and whenever the search result is within the
horizon, the first generated occurrence is exactly that result carrying the
slot time. -/
theorem C2_weekday_search_amended (d : DateTime) (hv : ValidDate d) :
    (weekday d = 2 → find_weekday d 0 = addDays 5 d ∧ weekday (find_weekday d 0) = 0)
    ∧ (∀ t : Nat, weekday d = t → find_weekday d t = d)
    ∧ (∀ (f : String) (e : DateTime) (hh mm t : Nat), ValidDate e → t < 7 →
        dtLe (find_weekday d t) e = true →
        (expand_occurrences f e hh mm (find_weekday d t)).head?
          = some (replaceTime (find_weekday d t) hh mm)) := by
  refine ⟨?_, ?_, ?_⟩
  · intro hw
    have h5 : find_weekday d 0 = addDays ((0 + 7 - weekday d) % 7) d :=
      find_weekday_eq_addDays hv (by norm_num)
    rw [hw] at h5
    norm_num at h5
    refine ⟨h5, ?_⟩
    rw [h5, weekday_addDays hv, hw]
  · intro t ht
    exact find_weekday_self ht
  · intro f e hh mm t he ht hg
    have hvf : ValidDate (find_weekday d t) := by
      rw [find_weekday_eq_addDays hv ht]
      exact validDate_addDays hv _
    exact expand_occurrences_head hvf he hg

/-- C2, witness: the amended theorem at the concrete Wednesday 2025-10-08
and at a Monday anchor. -/
theorem C2_witness :
    ValidDate ⟨2025, 10, 8, 9, 0⟩
    ∧ find_weekday ⟨2025, 10, 8, 9, 0⟩ 0 = addDays 5 ⟨2025, 10, 8, 9, 0⟩
    ∧ find_weekday ⟨2025, 10, 13, 9, 0⟩ 0 = ⟨2025, 10, 13, 9, 0⟩
    ∧ (expand_occurrences "Weekly" ⟨2025, 12, 31, 0, 0⟩ 6 0
        (find_weekday ⟨2025, 10, 8, 9, 0⟩ 0)).head?
        = some (replaceTime (find_weekday ⟨2025, 10, 8, 9, 0⟩ 0) 6 0) :=
  ⟨by decide,
   ((C2_weekday_search_amended ⟨2025, 10, 8, 9, 0⟩ (by decide)).1 (by decide)).1,
   (C2_weekday_search_amended ⟨2025, 10, 13, 9, 0⟩ (by decide)).2.1 0 (by decide),
   (C2_weekday_search_amended ⟨2025, 10, 8, 9, 0⟩ (by decide)).2.2 "Weekly"
     ⟨2025, 12, 31, 0, 0⟩ 6 0 0 (by decide) (by decide) (by decide)⟩

/-- C1, counterexample: a run starting 2025-12-30 at 10:00 with Daily
frequency.  The schedule's next occurrence falls exactly on December 31,
yet the generated set is only the December 30 event: the horizon is the
datetime `datetime(2025, 12, 31)` (midnight) while the loop variable
carries the run's 10:00 time of day, so the December 31 occurrence fails
`current <= end_date` and is dropped. -/
theorem C1_counterexample :
    get_next_occurrence ⟨2025, 12, 30, 10, 0⟩ "Daily" = ⟨2025, 12, 31, 10, 0⟩
    ∧ end_of_year ⟨2025, 12, 30, 10, 0⟩ = ⟨2025, 12, 31, 0, 0⟩
    ∧ expand_occurrences "Daily" (end_of_year ⟨2025, 12, 30, 10, 0⟩) 6 0
        ⟨2025, 12, 30, 10, 0⟩ = [⟨2025, 12, 30, 6, 0⟩] := by
  refine ⟨by rw [get_next_occurrence_daily]; decide, by decide, ?_⟩
  show expand_aux "Daily" _ 6 0 _ _ = _
  rw [show toDays (end_of_year ⟨2025, 12, 30, 10, 0⟩) + 1
      - toDays ⟨2025, 12, 30, 10, 0⟩ = 2 by decide]
  show (if dtLe ⟨2025, 12, 30, 10, 0⟩ _ then _ :: _ else []) = _
  rw [show dtLe ⟨2025, 12, 30, 10, 0⟩ (end_of_year ⟨2025, 12, 30, 10, 0⟩) = true by decide,
    get_next_occurrence_daily]
  show _ :: (if dtLe _ _ then _ :: _ else []) = _
  rw [show dtLe (addDays 1 ⟨2025, 12, 30, 10, 0⟩) (end_of_year ⟨2025, 12, 30, 10, 0⟩)
      = false by decide]
  decide

theorem validDate_end_of_year (today : DateTime) : ValidDate (end_of_year today) := by
  refine ⟨?_, ?_, ?_, ?_⟩
  · show (1 : Nat) ≤ 12
    norm_num
  · show (12 : Nat) ≤ 12
    norm_num
  · show (1 : Nat) ≤ 31
    norm_num
  · show (31 : Nat) ≤ daysInMonth today.year 12
    norm_num [daysInMonth]

/-- C1, amended: every generated occurrence is dated on or before December
31 of the anchor year; but the horizon is the *datetime* December 31 at
00:00, so a schedule hit falling exactly on December 31 is generated only
when the loop instants carry a midnight time of day — when the expansion
start is at midnight, every schedule hit dated up to and including December
31 is in the generated set. -/
theorem C1_horizon_amended (today start : DateTime) (f : String) (hh mm : Nat)
    (hs : ValidDate start) :
    (∀ fuel : Nat, ∀ o ∈ expand_aux f (end_of_year today) hh mm fuel start,
        dateLe o (end_of_year today) = true)
    ∧ (start.hour = 0 → start.minute = 0 → ∀ k : Nat,
        dateLe (iterate_occurrence f k start) (end_of_year today) = true →
        replaceTime (iterate_occurrence f k start) hh mm
          ∈ expand_occurrences f (end_of_year today) hh mm start) := by
  have hey := validDate_end_of_year today
  constructor
  · intro fuel o ho
    exact expand_aux_dateLe f (end_of_year today) hh mm fuel start o ho
  · intro hh0 hm0 k hk
    have hvk : ∀ j, ValidDate (iterate_occurrence f j start) :=
      validDate_iterate_occurrence hs f
    have htok : toDays (iterate_occurrence f k start) ≤ toDays (end_of_year today) :=
      toDays_le_of_dateLe (hvk k) hey hk
    have hguard : ∀ j, j ≤ k → dtLe (iterate_occurrence f j start) (end_of_year today) = true := by
      intro j hj
      have h1 : toDays (iterate_occurrence f j start)
          ≤ toDays (iterate_occurrence f k start) :=
        toDays_iterate_occurrence_mono hs f hj
      have h2 : dateLe (iterate_occurrence f j start) (end_of_year today) = true :=
        dateLe_of_toDays_le (hvk j) hey (by omega)
      refine dtLe_of_midnight_dateLe ?_ ?_ h2
      · rw [hour_iterate_occurrence, hh0]
      · rw [minute_iterate_occurrence, hm0]
    have h0 : toDays start + k ≤ toDays (iterate_occurrence f k start) :=
      toDays_iterate_occurrence hs f k
    have hfuel : k < toDays (end_of_year today) + 1 - toDays start := by omega
    exact mem_expand_aux f (end_of_year today) hh mm k
      (toDays (end_of_year today) + 1 - toDays start) start hfuel hguard

/-- C1, witness: a midnight run start three days before year end with Daily
frequency; the December 31 schedule hit is generated, and the boundedness
part applied to a generated occurrence. -/
theorem C1_witness :
    ValidDate ⟨2025, 12, 29, 0, 0⟩
    ∧ iterate_occurrence "Daily" 2 ⟨2025, 12, 29, 0, 0⟩ = ⟨2025, 12, 31, 0, 0⟩
    ∧ replaceTime (iterate_occurrence "Daily" 2 ⟨2025, 12, 29, 0, 0⟩) 6 0
        ∈ expand_occurrences "Daily" (end_of_year ⟨2025, 12, 29, 0, 0⟩) 6 0
          ⟨2025, 12, 29, 0, 0⟩
    ∧ dateLe ⟨2025, 12, 30, 6, 0⟩ (end_of_year ⟨2025, 12, 29, 0, 0⟩) = true := by
  have hiter : iterate_occurrence "Daily" 2 ⟨2025, 12, 29, 0, 0⟩ = ⟨2025, 12, 31, 0, 0⟩ := by
    show iterate_occurrence "Daily" 1 (get_next_occurrence ⟨2025, 12, 29, 0, 0⟩ "Daily") = _
    rw [get_next_occurrence_daily]
    show iterate_occurrence "Daily" 0 (get_next_occurrence _ "Daily") = _
    rw [get_next_occurrence_daily]
    decide
  refine ⟨by decide, hiter, ?_, ?_⟩
  · exact (C1_horizon_amended ⟨2025, 12, 29, 0, 0⟩ ⟨2025, 12, 29, 0, 0⟩ "Daily" 6 0
      (by decide)).2 rfl rfl 2 (by rw [hiter]; decide)
  · have hmem : (⟨2025, 12, 30, 6, 0⟩ : DateTime)
        ∈ expand_aux "Daily" (end_of_year ⟨2025, 12, 29, 0, 0⟩) 6 0 3 ⟨2025, 12, 29, 0, 0⟩ := by
      show _ ∈ (if dtLe ⟨2025, 12, 29, 0, 0⟩ _ then _ :: _ else [])
      rw [show dtLe ⟨2025, 12, 29, 0, 0⟩ (end_of_year ⟨2025, 12, 29, 0, 0⟩) = true by decide,
        get_next_occurrence_daily]
      refine List.mem_cons_of_mem _ ?_
      show _ ∈ (if dtLe (addDays 1 ⟨2025, 12, 29, 0, 0⟩) _ then _ :: _ else [])
      rw [show dtLe (addDays 1 ⟨2025, 12, 29, 0, 0⟩) (end_of_year ⟨2025, 12, 29, 0, 0⟩)
          = true by decide]
      refine List.mem_cons_self ..
    exact (C1_horizon_amended ⟨2025, 12, 29, 0, 0⟩ ⟨2025, 12, 29, 0, 0⟩ "Daily" 6 0
      (by decide)).1 3 ⟨2025, 12, 30, 6, 0⟩ hmem

theorem recurring_create_loop_dry (page_id : String)
    (pairs : List (EventPayload × CreateOutcome)) :
    ∀ (count : Nat) (linked : Option String),
      recurring_create_loop true page_id pairs count linked
        = ([], count + pairs.length, linked) := by
  induction pairs with
  | nil => intro count linked; simp [recurring_create_loop]
  | cons p rest ih =>
    intro count linked
    obtain ⟨payload, outcome⟩ := p
    simp [recurring_create_loop, create_calendar_event, ih]
    omega

theorem sync_page_with_date_dry (upd : UpdOutcome) (create : CreateOutcome)
    (page_id : String) (linked : Option String) (title : String)
    (date_obj : DateObj) (priority : Option String) :
    sync_page_with_date true upd create page_id linked title date_obj priority
      = ([], linked) := by
  obtain ⟨os, oe⟩ := date_obj
  cases os with
  | none => simp [sync_page_with_date, build_event_payload]
  | some s =>
    cases linked with
    | none =>
      simp [sync_page_with_date, build_event_payload, create_calendar_event]
    | some e =>
      simp [sync_page_with_date, build_event_payload, update_calendar_event]

theorem sync_page_with_recurring_dry (today : DateTime) (page_id : String)
    (linked : Option String) (title : String) (days : List String)
    (time_slot : String) (duration_minutes : Nat) (priority : Option String)
    (frequency : Option String) (outcomes : List CreateOutcome) :
    (sync_page_with_recurring true today page_id linked title days time_slot
        duration_minutes priority frequency outcomes).1 = []
    ∧ (sync_page_with_recurring true today page_id linked title days time_slot
        duration_minutes priority frequency outcomes).2.2 = linked := by
  cases hp : parse_time_slot time_slot with
  | error msg => simp [sync_page_with_recurring, hp]
  | ok hm =>
    obtain ⟨hour, minute⟩ := hm
    simp [sync_page_with_recurring, hp, recurring_create_loop_dry]

/-- C7: with the dry-run flag set, no record shape causes any mutating call
to reach the calendar or document-store collaborators — the traces are
empty, the stored back-reference is unchanged — and the create/update
operations return synthetic ids (`"dry-run-event-id"`, resp. the given
event id). -/
theorem C7_dry_run_frame :
    (∀ (outcome : CreateOutcome) (payload : EventPayload),
      create_calendar_event true outcome payload = (.ok "dry-run-event-id", []))
    ∧ (∀ (outcome : UpdOutcome) (event_id : String) (payload : EventPayload),
      update_calendar_event true outcome event_id payload = (.ok event_id, []))
    ∧ (∀ (upd : UpdOutcome) (create : CreateOutcome) (page_id : String)
        (linked : Option String) (title : String) (date_obj : DateObj)
        (priority : Option String),
      sync_page_with_date true upd create page_id linked title date_obj priority
        = ([], linked))
    ∧ (∀ (page_id : String) (pairs : List (EventPayload × CreateOutcome))
        (count : Nat) (linked : Option String),
      (recurring_create_loop true page_id pairs count linked).1 = []
      ∧ (recurring_create_loop true page_id pairs count linked).2.2 = linked)
    ∧ (∀ (today : DateTime) (page_id : String) (linked : Option String)
        (title : String) (days : List String) (time_slot : String)
        (duration_minutes : Nat) (priority : Option String)
        (frequency : Option String) (outcomes : List CreateOutcome),
      (sync_page_with_recurring true today page_id linked title days time_slot
          duration_minutes priority frequency outcomes).1 = []
      ∧ (sync_page_with_recurring true today page_id linked title days time_slot
          duration_minutes priority frequency outcomes).2.2 = linked)
    ∧ (∀ (today : DateTime) (upd : UpdOutcome) (create : CreateOutcome)
        (outcomes : List CreateOutcome) (page : PageData),
      (sync_page true today upd create outcomes page).1 = []
      ∧ (sync_page true today upd create outcomes page).2.1 = page.linked_event_id) := by
  refine ⟨fun _ _ => rfl, fun _ _ _ => rfl, sync_page_with_date_dry, ?_, ?_, ?_⟩
  · intro page_id pairs count linked
    rw [recurring_create_loop_dry]
    exact ⟨rfl, rfl⟩
  · intro today page_id linked title days time_slot dm priority frequency outcomes
    exact sync_page_with_recurring_dry today page_id linked title days time_slot
      dm priority frequency outcomes
  · intro today upd create outcomes page
    unfold sync_page
    by_cases ht : page.title = "" ∨ page.title = "(no title property)"
        ∨ page.title = "(untitled)"
    · rw [if_pos ht]
      exact ⟨rfl, rfl⟩
    · rw [if_neg ht]
      cases hd : page.date_obj with
      | some date_obj => simp [sync_page_with_date_dry]
      | none =>
        by_cases hskip : page.days = [] ∨ page.time_slot = none ∨ page.time_slot = some ""
        · rw [if_pos hskip]
          exact ⟨rfl, rfl⟩
        · rw [if_neg hskip]
          have := sync_page_with_recurring_dry today page.page_id page.linked_event_id
            page.title page.days (page.time_slot.getD "") page.duration_minutes
            page.priority page.frequency outcomes
          exact ⟨this.1, this.2⟩

/-- C5: explicit-date idempotence across two live runs.  The first run on a
record with no stored id creates the event and stores its id; the second
run, finding the stored id and a succeeding update, issues exactly one
update call and zero create calls, and the stored id is unchanged. -/
theorem C5_second_run_updates_only (page_id title : String) (date_obj : DateObj)
    (priority : Option String) (s id1 : String) (upd1 : UpdOutcome)
    (create2 : CreateOutcome) (hs : date_obj.start = some s) :
    (sync_page_with_date false upd1 (.ok id1) page_id none title date_obj priority).2
      = some id1
    ∧ updateCalls (sync_page_with_date false .ok create2 page_id
        (sync_page_with_date false upd1 (.ok id1) page_id none title date_obj priority).2
        title date_obj priority).1 = 1
    ∧ createCalls (sync_page_with_date false .ok create2 page_id
        (sync_page_with_date false upd1 (.ok id1) page_id none title date_obj priority).2
        title date_obj priority).1 = 0
    ∧ (sync_page_with_date false .ok create2 page_id
        (sync_page_with_date false upd1 (.ok id1) page_id none title date_obj priority).2
        title date_obj priority).2 = some id1 := by
  obtain ⟨os, oe⟩ := date_obj
  simp only at hs
  subst hs
  have hrun1 : sync_page_with_date false upd1 (.ok id1) page_id none title
      ⟨some s, oe⟩ priority
      = ([.createEvent (.fromDate title ⟨some s, oe⟩ (get_event_color priority)),
          .patchEventId page_id id1], some id1) := by
    simp [sync_page_with_date, build_event_payload, create_calendar_event,
      notion_patch_event_id]
  rw [hrun1]
  have hrun2 : sync_page_with_date false .ok create2 page_id (some id1) title
      ⟨some s, oe⟩ priority
      = ([.updateEvent id1 (.fromDate title ⟨some s, oe⟩ (get_event_color priority)),
          .patchEventId page_id id1], some id1) := by
    simp [sync_page_with_date, build_event_payload, update_calendar_event,
      notion_patch_event_id]
  rw [hrun2]
  refine ⟨rfl, ?_, ?_, rfl⟩ <;> simp [updateCalls, createCalls]

/-- C5, witness: the theorem at a concrete record. -/
theorem C5_witness :
    (sync_page_with_date false .ok (.ok "ev1") "pg" none "Gym"
        ⟨some "2025-10-08", none⟩ none).2 = some "ev1"
    ∧ updateCalls (sync_page_with_date false .ok .raise "pg"
        (sync_page_with_date false .ok (.ok "ev1") "pg" none "Gym"
          ⟨some "2025-10-08", none⟩ none).2
        "Gym" ⟨some "2025-10-08", none⟩ none).1 = 1
    ∧ createCalls (sync_page_with_date false .ok .raise "pg"
        (sync_page_with_date false .ok (.ok "ev1") "pg" none "Gym"
          ⟨some "2025-10-08", none⟩ none).2
        "Gym" ⟨some "2025-10-08", none⟩ none).1 = 0 :=
  ⟨(C5_second_run_updates_only "pg" "Gym" ⟨some "2025-10-08", none⟩ none
      "2025-10-08" "ev1" .ok .raise rfl).1,
   (C5_second_run_updates_only "pg" "Gym" ⟨some "2025-10-08", none⟩ none
      "2025-10-08" "ev1" .ok .raise rfl).2.1,
   (C5_second_run_updates_only "pg" "Gym" ⟨some "2025-10-08", none⟩ none
      "2025-10-08" "ev1" .ok .raise rfl).2.2.1⟩

/-- C8: live update-failure handling for an explicit-date record with a
stored id.  A "404 not found" failure falls back to one create and stores
the newly created id; any other update failure makes no create call, no
second update call (no retry), and leaves the stored id unchanged. -/
theorem C8_update_failure_paths (page_id title : String) (date_obj : DateObj)
    (priority : Option String) (s e newId : String)
    (hs : date_obj.start = some s) :
    (sync_page_with_date false .notFound404 (.ok newId) page_id (some e) title
        date_obj priority).1
      = [.updateEvent e (.fromDate title date_obj (get_event_color priority)),
         .createEvent (.fromDate title date_obj (get_event_color priority)),
         .patchEventId page_id newId]
    ∧ (sync_page_with_date false .notFound404 (.ok newId) page_id (some e) title
        date_obj priority).2 = some newId
    ∧ ∀ create : CreateOutcome,
        createCalls (sync_page_with_date false .otherError create page_id (some e)
          title date_obj priority).1 = 0
        ∧ updateCalls (sync_page_with_date false .otherError create page_id (some e)
            title date_obj priority).1 = 1
        ∧ (sync_page_with_date false .otherError create page_id (some e) title
            date_obj priority).2 = some e := by
  obtain ⟨os, oe⟩ := date_obj
  simp only at hs
  subst hs
  have h404 : sync_page_with_date false .notFound404 (.ok newId) page_id (some e)
      title ⟨some s, oe⟩ priority
      = ([.updateEvent e (.fromDate title ⟨some s, oe⟩ (get_event_color priority)),
          .createEvent (.fromDate title ⟨some s, oe⟩ (get_event_color priority)),
          .patchEventId page_id newId], some newId) := by
    simp [sync_page_with_date, build_event_payload, update_calendar_event,
      create_calendar_event, notion_patch_event_id]
  have hother : ∀ create : CreateOutcome,
      sync_page_with_date false .otherError create page_id (some e) title
        ⟨some s, oe⟩ priority
      = ([.updateEvent e (.fromDate title ⟨some s, oe⟩ (get_event_color priority))],
         some e) := by
    intro create
    simp [sync_page_with_date, build_event_payload, update_calendar_event]
  refine ⟨by rw [h404], by rw [h404], ?_⟩
  intro create
  rw [hother create]
  refine ⟨?_, ?_, rfl⟩ <;> simp [createCalls, updateCalls]

/-- C8, witness: the theorem at a concrete record. -/
theorem C8_witness :
    (sync_page_with_date false .notFound404 (.ok "new") "pg" (some "stale") "Gym"
        ⟨some "2025-10-08", none⟩ none).2 = some "new"
    ∧ createCalls (sync_page_with_date false .otherError (.ok "new") "pg"
        (some "stale") "Gym" ⟨some "2025-10-08", none⟩ none).1 = 0
    ∧ (sync_page_with_date false .otherError (.ok "new") "pg" (some "stale") "Gym"
        ⟨some "2025-10-08", none⟩ none).2 = some "stale" :=
  ⟨(C8_update_failure_paths "pg" "Gym" ⟨some "2025-10-08", none⟩ none
      "2025-10-08" "stale" "new" rfl).2.1,
   ((C8_update_failure_paths "pg" "Gym" ⟨some "2025-10-08", none⟩ none
      "2025-10-08" "stale" "new" rfl).2.2 (.ok "new")).1,
   ((C8_update_failure_paths "pg" "Gym" ⟨some "2025-10-08", none⟩ none
      "2025-10-08" "stale" "new" rfl).2.2 (.ok "new")).2.2⟩

/-- C9: a record with a valid title, no explicit date, and empty
`days_of_week` or missing/empty `time_slot` is skipped deterministically:
no calendar call, no back-reference write, exactly one info log, no raised
error, and the batch driver still counts it as a success. -/
theorem C9_incomplete_recurring_skip (dry : Bool) (today : DateTime)
    (upd : UpdOutcome) (create : CreateOutcome) (outcomes : List CreateOutcome)
    (page : PageData)
    (htitle : ¬ (page.title = "" ∨ page.title = "(no title property)"
      ∨ page.title = "(untitled)"))
    (hdate : page.date_obj = none)
    (hskip : page.days = [] ∨ page.time_slot = none ∨ page.time_slot = some "") :
    sync_page dry today upd create outcomes page
      = ([], page.linked_event_id, [.info])
    ∧ run_sync_counts dry today upd create outcomes [page] = (1, 0) := by
  constructor
  · unfold sync_page
    rw [if_neg htitle, hdate]
    show (if _ then _ else _) = _
    rw [if_pos hskip]
  · rfl

/-- C9, witness: the theorem at a concrete record with a time slot but an
empty day set. -/
theorem C9_witness :
    sync_page false ⟨2025, 10, 8, 9, 0⟩ .ok (.ok "ev") [] 
      ⟨"pg", "Gym", none, [], some "0600", 60, none, some "Weekly", none⟩
      = ([], none, [.info])
    ∧ run_sync_counts false ⟨2025, 10, 8, 9, 0⟩ .ok (.ok "ev") []
      [⟨"pg", "Gym", none, [], some "0600", 60, none, some "Weekly", none⟩] = (1, 0) :=
  C9_incomplete_recurring_skip false ⟨2025, 10, 8, 9, 0⟩ .ok (.ok "ev") []
    ⟨"pg", "Gym", none, [], some "0600", 60, none, some "Weekly", none⟩
    (by simp) rfl (Or.inl rfl)

theorem recurring_create_loop_skip_failures (page_id : String)
    (pre : List (EventPayload × CreateOutcome)) (hpre : ∀ p ∈ pre, p.2 = .raise) :
    ∀ (rest : List (EventPayload × CreateOutcome)) (count : Nat) (linked : Option String),
      patchWrites (recurring_create_loop false page_id (pre ++ rest) count linked).1
        = patchWrites (recurring_create_loop false page_id rest count linked).1
      ∧ (recurring_create_loop false page_id (pre ++ rest) count linked).2
        = (recurring_create_loop false page_id rest count linked).2 := by
  induction pre with
  | nil => intro rest count linked; exact ⟨rfl, rfl⟩
  | cons p pre' ih =>
    intro rest count linked
    obtain ⟨payload, outcome⟩ := p
    have hout : outcome = .raise := hpre (payload, outcome) (List.mem_cons_self ..)
    subst hout
    have ih' := ih (fun q hq => hpre q (List.mem_cons_of_mem _ hq)) rest count linked
    simp [recurring_create_loop, create_calendar_event, patchWrites] at ih' ⊢
    exact ih'

theorem recurring_create_loop_no_patch_after (page_id : String) :
    ∀ (rest : List (EventPayload × CreateOutcome)) (count : Nat)
      (linked : Option String), 1 ≤ count →
      patchWrites (recurring_create_loop false page_id rest count linked).1 = []
      ∧ (recurring_create_loop false page_id rest count linked).2.2 = linked := by
  intro rest
  induction rest with
  | nil => intro count linked hc; exact ⟨rfl, rfl⟩
  | cons p rest' ih =>
    intro count linked hc
    obtain ⟨payload, outcome⟩ := p
    cases outcome with
    | ok id =>
      have hc0 : ¬ count = 0 := by omega
      have ih' := ih (count + 1) linked (by omega)
      simp [recurring_create_loop, create_calendar_event, patchWrites, hc0] at ih' ⊢
      exact ih'
    | raise =>
      have ih' := ih count linked hc
      simp [recurring_create_loop, create_calendar_event, patchWrites] at ih' ⊢
      exact ih'

theorem recurring_create_loop_first_success (page_id : String)
    (payload0 : EventPayload) (id0 : String)
    (post : List (EventPayload × CreateOutcome)) (linked : Option String) :
    patchWrites (recurring_create_loop false page_id
        ((payload0, .ok id0) :: post) 0 linked).1 = [(page_id, id0)]
    ∧ (recurring_create_loop false page_id
        ((payload0, .ok id0) :: post) 0 linked).2.2 = some id0 := by
  have hafter := recurring_create_loop_no_patch_after page_id post 1 (some id0) (by omega)
  simp [recurring_create_loop, create_calendar_event, notion_patch_event_id,
    patchWrites] at hafter ⊢
  exact hafter

/-- C6: expanding a recurring record into several occurrences in live mode
writes the back-reference exactly once — for the first occurrence whose
create call succeeds — and the stored `linked_event_id` afterwards is that
occurrence's id; the ids of all later occurrences are discarded.
The final conjunct ties `sync_page_with_recurring` to the create loop the
statement quantifies over. -/
theorem C6_first_created_id_only (page_id : String) (linked : Option String)
    (pre post : List (EventPayload × CreateOutcome)) (payload0 : EventPayload)
    (id0 : String) (hpre : ∀ p ∈ pre, p.2 = .raise)
    (hN : 1 < (pre ++ (payload0, .ok id0) :: post).length) :
    patchWrites (recurring_create_loop false page_id
        (pre ++ (payload0, .ok id0) :: post) 0 linked).1 = [(page_id, id0)]
    ∧ (recurring_create_loop false page_id
        (pre ++ (payload0, .ok id0) :: post) 0 linked).2.2 = some id0
    ∧ (∀ (today : DateTime) (title : String) (days : List String)
        (time_slot : String) (duration_minutes : Nat) (priority : Option String)
        (frequency : Option String) (outcomes : List CreateOutcome)
        (hour minute : Nat),
        parse_time_slot time_slot = .ok (hour, minute) →
        sync_page_with_recurring false today page_id linked title days time_slot
            duration_minutes priority frequency outcomes
          = recurring_create_loop false page_id
              (((recurring_occurrences today days hour minute frequency).map fun occ =>
                build_event_payload_from_time title occ duration_minutes
                  (get_event_color priority)).zip outcomes) 0 linked) := by
  have hskip := recurring_create_loop_skip_failures page_id pre hpre
    ((payload0, .ok id0) :: post) 0 linked
  have hfirst := recurring_create_loop_first_success page_id payload0 id0 post linked
  refine ⟨?_, ?_, ?_⟩
  · rw [hskip.1, hfirst.1]
  · have h2 := hskip.2
    have : (recurring_create_loop false page_id
        (pre ++ (payload0, .ok id0) :: post) 0 linked).2.2
        = (recurring_create_loop false page_id
          ((payload0, .ok id0) :: post) 0 linked).2.2 := by rw [h2]
    rw [this, hfirst.2]
  · intro today title days time_slot dm priority frequency outcomes hour minute hparse
    simp [sync_page_with_recurring, hparse]

/-- C6, witness: three occurrences whose first create fails and whose second
succeeds with id `"e1"`: exactly one back-reference write, carrying `"e1"`;
the third occurrence's id `"e2"` is discarded. -/
theorem C6_witness :
    patchWrites (recurring_create_loop false "pg"
        ([(.fromTime "Gym" ⟨2025, 10, 13, 6, 0⟩ 60 none, .raise)]
          ++ (.fromTime "Gym" ⟨2025, 10, 20, 6, 0⟩ 60 none, .ok "e1")
            :: [(.fromTime "Gym" ⟨2025, 10, 27, 6, 0⟩ 60 none, .ok "e2")]) 0 none).1
      = [("pg", "e1")]
    ∧ (recurring_create_loop false "pg"
        ([(.fromTime "Gym" ⟨2025, 10, 13, 6, 0⟩ 60 none, .raise)]
          ++ (.fromTime "Gym" ⟨2025, 10, 20, 6, 0⟩ 60 none, .ok "e1")
            :: [(.fromTime "Gym" ⟨2025, 10, 27, 6, 0⟩ 60 none, .ok "e2")]) 0 none).2.2
      = some "e1" :=
  ⟨(C6_first_created_id_only "pg" none
      [(.fromTime "Gym" ⟨2025, 10, 13, 6, 0⟩ 60 none, .raise)]
      [(.fromTime "Gym" ⟨2025, 10, 27, 6, 0⟩ 60 none, .ok "e2")]
      (.fromTime "Gym" ⟨2025, 10, 20, 6, 0⟩ 60 none) "e1"
      (by intro p hp; simp at hp; rw [hp]) (by simp)).1,
   (C6_first_created_id_only "pg" none
      [(.fromTime "Gym" ⟨2025, 10, 13, 6, 0⟩ 60 none, .raise)]
      [(.fromTime "Gym" ⟨2025, 10, 27, 6, 0⟩ 60 none, .ok "e2")]
      (.fromTime "Gym" ⟨2025, 10, 20, 6, 0⟩ 60 none) "e1"
      (by intro p hp; simp at hp; rw [hp]) (by simp)).2.1⟩
